import Mathlib

/-!
Shallow embedding of the variant-calling pipeline driver `varcal_minion.py`.

The script orchestrates: sample discovery under the input directory,
per-sample mapping with minimap2 + samtools (with a skip-if-index-exists
check), reference indexing with samtools faidx, and reference partitioning
into chunks for freebayes-parallel.

Pure string manipulations (`str.split`, `os.path.join`, sample-key
derivation) are translated directly.  Filesystem state is a predicate
`String → Bool` (file/directory existence), and external effects are an
explicit event trace (`Event`).  Helper functions imported from the
module `misc_ion` are not part of the available source; they are modelled
from the specification and carry a doc comment saying so.
-/

/-- Python `str.split(sep)` on a character list, for a one-character
separator: splits at every occurrence, keeping empty pieces, and returns
`[[]]` on the empty string (so the result is never empty). -/
def pySplitAux (c : Char) : List Char → List (List Char)
  | [] => [[]]
  | x :: xs =>
    if x = c then [] :: pySplitAux c xs
    else
      match pySplitAux c xs with
      | [] => [[x]]
      | y :: ys => (x :: y) :: ys

/-- Python `s.split(c)` for a one-character separator `c`. -/
def pySplit (c : Char) (s : String) : List String :=
  (pySplitAux c s.data).map String.mk

/-- `os.path.join a b` for a relative second component. -/
def pathJoin (a b : String) : String := a ++ "/" ++ b

/-- The portion of a filename before the first dot: `name.split('.')[0]`.
(`pySplit` never returns the empty list, so the default is not reached.) -/
def stem (s : String) : String := (pySplit '.' s).headD ""

/-- Sample-key derivation of the mapping stage:
`name.split('.')[0].split('_')[1]`.  Python list indexing raises
`IndexError` when out of range, so the result is an `Option`. -/
def filename_out (name : String) : Option String :=
  ((pySplit '.' name).get? 0).bind fun st => (pySplit '_' st).get? 1

/-- Whether a character list starts with the two characters `HQ`. -/
def startsHQ : List Char → Bool
  | 'H' :: 'Q' :: _ => true
  | _ => false

/-- Python `'HQ' in name`: substring containment of the quality-filtered
naming marker. -/
def containsHQ : List Char → Bool
  | [] => false
  | x :: xs => startsHQ (x :: xs) || containsHQ xs

/-- Externally visible effects of a run: directory creation, scanning the
input directory for read files, a shell pipeline invocation, an argv-list
invocation, reference indexing, and persisting the region partition. -/
inductive Event where
  | mkdir (p : String)
  | scan (dir : String)
  | shell (cmd : String)
  | exec (argv : List String)
  | faidx (ref : String)
  | regions (ref : String) (n : Int)
  deriving DecidableEq

/-- Add one path to a filesystem (existence predicate). -/
def addFile (fs : String → Bool) (p : String) : String → Bool :=
  fun q => if q = p then true else fs q

/-- Modelled from the spec: `check_create_dir` (defined in `misc_ion`,
not under `src/`) idempotently ensures a directory exists — create if
absent, no error and no effect if already present. -/
def check_create_dir (fs : String → Bool) (p : String) :
    (String → Bool) × List Event :=
  if fs p then (fs, []) else (addFile fs p, [Event.mkdir p])

/-- Python `os.path.basename`: the part after the last path separator. -/
def basename (p : String) : String := (pySplit '/' p).getLastD ""

/-- Modelled from the spec: `extract_sample_list` (defined in `misc_ion`,
not under `src/`) derives the canonical Sample key from one read-file path
by stripping path and suffix components and taking the sample token, so
that `HQ_S1_run1.fastq ↦ S1` — the same derivation the mapping stage
performs inline. -/
def extract_sample_list (path : String) : Option String :=
  filename_out (basename path)

/-- Modelled from the spec: `extract_read_list` (defined in `misc_ion`,
not under `src/`) walks the input directory and returns the full paths of
the read files matching the quality-filtered naming convention (the `HQ`
marker).  The directory walk is supplied as a list of (root, filename)
pairs. -/
def extract_read_list (walk : List (String × String)) : List String :=
  (walk.filter fun rn => containsHQ rn.2.data).map fun rn => pathJoin rn.1 rn.2

/-- Modelled from the spec: `file_to_list` (defined in `misc_ion`, not
under `src/`) reads the allow-list file and returns the sample identifiers
it lists; the file is supplied as its parsed line contents.  It receives
only the file path, so its result depends only on the file contents. -/
def file_to_list (contents : List String) : List String := contents

/-- The sample-resolution loop of the driver: one `append` of
`extract_sample_list` per discovered read file, propagating any
key-derivation failure. -/
def sample_list : List String → Option (List String)
  | [] => some []
  | f :: rest =>
    match extract_sample_list f with
    | none => none
    | some s =>
      match sample_list rest with
      | none => none
      | some acc => some (s :: acc)

/-- The allow-list filtering block of the driver: with no `--sample_list`
argument the loop over `fastq` is repeated; with an argument the result is
`file_to_list` of the supplied file. -/
def sample_list_F (fastq : List String)
    (sampleListArg : Option (List String)) : Option (List String) :=
  match sampleListArg with
  | none => sample_list fastq
  | some f => some (file_to_list f)

/-- The shell pipeline issued for one sample:
minimap2, unmapped-read exclusion by flag 4, and coordinate sort. -/
def cmd_minimap2 (reference hq bam : String) : String :=
  "minimap2 -ax map-ont " ++ reference ++ " " ++ hq ++
    " | samtools view -bS -F 4 - | samtools sort -o " ++ bam

/-- One iteration of the `minimap2_mapping` walk loop: derive the sample
key (Python raises `IndexError` on underivable names, hence `none`),
then either skip when the `.sort.bam.bai` index already exists, or issue
the mapping pipeline followed by a separate indexing invocation.  The
documented effect of the two commands — creation of the sorted BAM and of
its index — is recorded in the filesystem. -/
def processFile (fs : String → Bool) (out_sorted_bam reference root name : String) :
    Option ((String → Bool) × List Event) :=
  match filename_out name with
  | none => none
  | some fo =>
    let HQ_filename := pathJoin root name
    let filename_bam_out := pathJoin out_sorted_bam (fo ++ ".sort.bam")
    let filename_bai_out := pathJoin out_sorted_bam (fo ++ ".sort.bam.bai")
    if fs filename_bai_out then
      some (fs, [])
    else
      some (addFile (addFile fs filename_bam_out) filename_bai_out,
        [Event.shell (cmd_minimap2 reference HQ_filename filename_bam_out),
         Event.exec ["samtools", "index", filename_bam_out]])

/-- The mapping stage: walk every file under the filtered-reads directory
(the walk is supplied as (root, filename) pairs), processing each in turn;
an unhandled key-derivation error aborts the stage (`false` flag) with no
further files processed. -/
def minimap2_mapping : (String → Bool) → List (String × String) → String →
    String → (String → Bool) × List Event × Bool
  | fs, [], _, _ => (fs, [], true)
  | fs, (root, name) :: rest, out, ref =>
    match processFile fs out ref root name with
    | none => (fs, [], false)
    | some (fs', evs) =>
      let m := minimap2_mapping fs' rest out ref
      (m.1, evs ++ m.2.1, m.2.2)

/-- Modelled from the spec: `samtools_faidx` (defined in `misc_ion`, not
under `src/`) ensures the reference sequence index exists — created if
absent, reused untouched if present. -/
def samtools_faidx (fs : String → Bool) (ref : String) :
    (String → Bool) × List Event :=
  if fs (ref ++ ".fai") then (fs, [])
  else (addFile fs (ref ++ ".fai"), [Event.faidx ref])

/-- Modelled from the spec: `create_reference_chunks` (defined in
`misc_ion`, not under `src/`) partitions the reference into `n` chunks
and persists a region-list file (the `regions` event).  A target count
`n ≤ 0` is invalid and fails the run before any partitioning work begins
and before touching the filesystem. -/
def create_reference_chunks (fs : String → Bool) (ref : String) (n : Int) :
    Option ((String → Bool) × List Event) :=
  if n ≤ 0 then none else some (fs, [Event.regions ref n])

/-- The command-line arguments consumed by the modelled pipeline core.
The allow-list argument is carried as the parsed contents of the supplied
file (`none` when the flag is absent). -/
structure Args where
  input_dir : String
  sample_list : Option (List String)
  reference : String
  chunks : Int
  output : String

/-- The driver prelude (source lines up to sample reporting): create the
output root and the log folder, then scan the fixed filtered-reads
subpath for read files.  Returns the filesystem and the events. -/
def resolve_part (args : Args) (fs0 : String → Bool) :
    (String → Bool) × List Event :=
  let s1 := check_create_dir fs0 args.output
  let s2 := check_create_dir s1.1 (pathJoin args.output "Logs")
  (s2.1,
    s1.2 ++ s2.2 ++
      [Event.scan (pathJoin args.input_dir "Samples_Fastq/Filtered_Fastq")])

/-- The layout-plus-mapping block of the driver: create the `Bam` and
`Variants` directories (the `Stats`, `Compare` and `Annotation` paths,
with their subfolders, are declared in the source but `check_create_dir`
is never called on them), then run the mapping stage over the directory
walk. -/
def mapping_part (args : Args) (walk : List (String × String))
    (fs : String → Bool) : (String → Bool) × List Event × Bool :=
  let s3 := check_create_dir fs (pathJoin args.output "Bam")
  let s4 := check_create_dir s3.1 (pathJoin args.output "Variants")
  let m := minimap2_mapping s4.1 walk (pathJoin args.output "Bam")
    args.reference
  (m.1, s3.2 ++ s4.2 ++ m.2.1, m.2.2)

/-- The variant-calling preparation block of the driver: index the
reference, then partition it into the requested number of chunks. -/
def calling_part (args : Args) (fs : String → Bool) :
    (String → Bool) × List Event × Bool :=
  let f := samtools_faidx fs args.reference
  match create_reference_chunks f.1 args.reference args.chunks with
  | none => (f.1, f.2, false)
  | some (fs', evs) => (fs', f.2 ++ evs, true)

/-- The `__main__` driver: prelude (output root, log folder, sample
resolution and reporting), the allow-list working set (computed, never
consumed afterwards), then layout creation and mapping, then reference
indexing and partitioning.  A sample-key derivation failure or an invalid
chunk count fails the run.  Result: final filesystem, event trace, and
success flag. -/
def run_driver (args : Args) (walk : List (String × String))
    (fs0 : String → Bool) : (String → Bool) × List Event × Bool :=
  let p := resolve_part args fs0
  match sample_list (extract_read_list walk) with
  | none => (p.1, p.2, false)
  | some _samples =>
    let _sampleListF := sample_list_F (extract_read_list walk) args.sample_list
    let mp := mapping_part args walk p.1
    if mp.2.2 then
      let cp := calling_part args mp.1
      (cp.1, p.2 ++ mp.2.1 ++ cp.2.1, cp.2.2)
    else (mp.1, p.2 ++ mp.2.1, false)

/-- Concrete arguments used by witnesses and counterexamples. -/
def exArgs : Args :=
  { input_dir := "/in", sample_list := none, reference := "ref.fa"
    chunks := 1, output := "/out" }

/-- Concrete one-file directory walk for witnesses and counterexamples. -/
def exWalk : List (String × String) := [("r", "HQ_S1_run1.fastq")]

/-- The empty filesystem. -/
def emptyFS : String → Bool := fun _ => false

/-- A filesystem holding only the index of sample S1's alignment artifact,
and not the artifact itself. -/
def fsOnlyBaiS1 : String → Bool := fun p => p == "/out/Bam/S1.sort.bam.bai"

/-- A filesystem holding only the index of sample S2's alignment artifact,
and not the artifact itself. -/
def fsOnlyBaiS2 : String → Bool := fun p => p == "/out/Bam/S2.sort.bam.bai"

/-- The four discovered read files of the allow-list example. -/
def exFastq4 : List String :=
  ["r/HQ_S1_run1.fastq", "r/HQ_S2_run1.fastq",
   "r/HQ_S3_run1.fastq", "r/HQ_S4_run1.fastq"]

/-! ### Helper lemmas about Python-style splitting -/

lemma pySplitAux_ne_nil (c : Char) (l : List Char) : pySplitAux c l ≠ [] := by
  induction l with
  | nil => simp [pySplitAux]
  | cons x xs ih =>
    unfold pySplitAux
    split
    · simp
    · split <;> simp

lemma pySplit_ne_nil (c : Char) (s : String) : pySplit c s ≠ [] := by
  unfold pySplit
  intro h
  exact pySplitAux_ne_nil c s.data (List.map_eq_nil_iff.mp h)

lemma pySplitAux_not_mem (c : Char) (l : List Char) (h : c ∉ l) :
    pySplitAux c l = [l] := by
  induction l with
  | nil => rfl
  | cons x xs ih =>
    have hx : ¬ x = c := fun e => h (e ▸ List.mem_cons_self x xs)
    have hxs : c ∉ xs := fun m => h (List.mem_cons_of_mem x m)
    unfold pySplitAux
    rw [if_neg hx, ih hxs]

lemma filename_out_eq (name : String) :
    filename_out name = (pySplit '_' (stem name)).get? 1 := by
  unfold filename_out stem
  cases h : pySplit '.' name with
  | nil => exact absurd h (pySplit_ne_nil '.' name)
  | cons a t => simp

lemma filename_out_none_of_no_underscore (name : String)
    (h : '_' ∉ (stem name).data) : filename_out name = none := by
  rw [filename_out_eq]
  unfold pySplit
  rw [pySplitAux_not_mem '_' (stem name).data h]
  rfl

/-! ### Claim theorems: mapping-stage skip logic (C1, C8) -/

/-- C1 (amended): the Mapping Stage skips a file — no external
invocation and the filesystem left untouched — if and only if the
`.sort.bam.bai` index file already exists; the sorted alignment file
itself is never consulted. -/
theorem mapping_skip_iff_index_exists (fs : String → Bool)
    (out ref root name fo : String) (h : filename_out name = some fo) :
    (processFile fs out ref root name = some (fs, []) ↔
      fs (pathJoin out (fo ++ ".sort.bam.bai")) = true) := by
  unfold processFile
  rw [h]
  by_cases hb : fs (pathJoin out (fo ++ ".sort.bam.bai")) = true
  · simp [hb]
  · simp only [Bool.not_eq_true] at hb
    simp [hb]

/-- Witness for `mapping_skip_iff_index_exists` at a concrete state. -/
theorem mapping_skip_iff_index_exists_witness :
    (processFile fsOnlyBaiS1 "/out/Bam" "ref.fa" "r" "HQ_S1_run1.fastq"
        = some (fsOnlyBaiS1, []) ↔
      fsOnlyBaiS1 (pathJoin "/out/Bam" ("S1" ++ ".sort.bam.bai")) = true) :=
  mapping_skip_iff_index_exists fsOnlyBaiS1 "/out/Bam" "ref.fa" "r"
    "HQ_S1_run1.fastq" "S1" (by decide)

/-- C1 (counterexample): with only the index present and the sorted
alignment file absent, the stage still skips (no external invocation),
although the claimed skip condition — both files exist — does not hold. -/
theorem mapping_skips_without_artifact :
    (processFile fsOnlyBaiS1 "/out/Bam" "ref.fa" "r" "HQ_S1_run1.fastq").map
        (fun r => r.2) = some [] ∧
      fsOnlyBaiS1 "/out/Bam/S1.sort.bam" = false := by decide

/-- C8 (amended): for a file whose `.sort.bam.bai` index is absent (and
whose sample key is derivable), the stage issues exactly one shell
pipeline — aligner, unmapped-read exclusion by flag 4, coordinate sort —
and then one separate indexing invocation on the sorted artifact. -/
theorem mapping_runs_pipeline_then_index (fs : String → Bool)
    (out ref root name fo : String) (h : filename_out name = some fo)
    (hidx : fs (pathJoin out (fo ++ ".sort.bam.bai")) = false) :
    processFile fs out ref root name =
      some (addFile (addFile fs (pathJoin out (fo ++ ".sort.bam")))
              (pathJoin out (fo ++ ".sort.bam.bai")),
        [Event.shell (cmd_minimap2 ref (pathJoin root name)
            (pathJoin out (fo ++ ".sort.bam"))),
         Event.exec ["samtools", "index", pathJoin out (fo ++ ".sort.bam")]]) := by
  unfold processFile
  rw [h]
  simp [hidx]

/-- Witness for `mapping_runs_pipeline_then_index` at a concrete state. -/
theorem mapping_runs_pipeline_then_index_witness :
    processFile emptyFS "/out/Bam" "ref.fa" "r" "HQ_S1_run1.fastq" =
      some (addFile (addFile emptyFS (pathJoin "/out/Bam" ("S1" ++ ".sort.bam")))
              (pathJoin "/out/Bam" ("S1" ++ ".sort.bam.bai")),
        [Event.shell (cmd_minimap2 "ref.fa" (pathJoin "r" "HQ_S1_run1.fastq")
            (pathJoin "/out/Bam" ("S1" ++ ".sort.bam"))),
         Event.exec ["samtools", "index",
            pathJoin "/out/Bam" ("S1" ++ ".sort.bam")]]) :=
  mapping_runs_pipeline_then_index emptyFS "/out/Bam" "ref.fa" "r"
    "HQ_S1_run1.fastq" "S1" (by decide) (by decide)

/-- C8 (counterexample): sample S2's sorted alignment artifact is absent
but its index file exists; the stage performs none of the claimed steps
(no external invocation at all). -/
theorem mapping_inaction_with_artifact_absent :
    (processFile fsOnlyBaiS2 "/out/Bam" "ref.fa" "r" "HQ_S2_run1.fastq").map
        (fun r => r.2) = some [] ∧
      fsOnlyBaiS2 "/out/Bam/S2.sort.bam" = false := by decide

/-! ### Claim theorems: allow-list filtering (C2) -/

/-- C2 (amended): when an allow-list is supplied the working set is
exactly the identifiers listed in the file — no intersection with the
discovered Sample set is computed; with no allow-list the working set is
the discovered keys.  On the example — allow-list {S1, S3}, discovered
{S1, S2, S3, S4} — the result coincides with the intersection because
the allow-list is a subset of the discovered set. -/
theorem sample_list_F_is_allowlist_contents :
    (∀ fastq L, sample_list_F fastq (some L) = some (file_to_list L)) ∧
      (∀ fastq, sample_list_F fastq none = sample_list fastq) ∧
      sample_list_F exFastq4 (some ["S1", "S3"]) = some ["S1", "S3"] ∧
      (sample_list exFastq4).map
          (fun d => d.filter fun s => ["S1", "S3"].contains s)
        = some ["S1", "S3"] :=
  ⟨fun _ _ => rfl, fun _ => rfl, rfl, by decide⟩

/-- C2 (counterexample): an allow-list entry that was never discovered is
kept in the working set, so the working set is not the intersection of
the discovered set with the allow-list. -/
theorem allowlist_not_intersected :
    sample_list_F ["r/HQ_S1_run1.fastq"] (some ["S9"]) = some ["S9"] ∧
      sample_list ["r/HQ_S1_run1.fastq"] = some ["S1"] ∧
      ("S9" ∈ (["S1"] : List String) → False) := by decide

/-! ### Claim theorems: resolver duplicates (C5) -/

/-- C5 (amended): the resolver's output has exactly one entry per
discovered read file — read files normalising to the same Sample key
therefore produce duplicate entries, not a single merged one. -/
theorem sample_list_length (fastq ks : List String)
    (h : sample_list fastq = some ks) : ks.length = fastq.length := by
  induction fastq generalizing ks with
  | nil =>
    unfold sample_list at h
    simp only [Option.some.injEq] at h
    simp [← h]
  | cons f rest ih =>
    unfold sample_list at h
    cases he : extract_sample_list f with
    | none => rw [he] at h; exact absurd h (by simp)
    | some s =>
      rw [he] at h
      cases hr : sample_list rest with
      | none => rw [hr] at h; exact absurd h (by simp)
      | some acc =>
        rw [hr] at h
        simp only [Option.some.injEq] at h
        simp [← h, ih acc hr]

/-- Witness for `sample_list_length`: two read files for the same Sample
yield a two-entry output. -/
theorem sample_list_length_witness :
    sample_list ["r/HQ_S1_run1.fastq", "r/HQ_S1_run2.fastq"]
        = some ["S1", "S1"] ∧
      (["S1", "S1"] : List String).length
        = (["r/HQ_S1_run1.fastq", "r/HQ_S1_run2.fastq"] : List String).length :=
  ⟨by decide, sample_list_length _ _ (by decide)⟩

/-- C5 (counterexample): two read files normalising to the Sample key S1
produce the key twice in the resolver's output, which is therefore not
duplicate-free. -/
theorem resolver_output_duplicates :
    sample_list ["r/HQ_S1_run1.fastq", "r/HQ_S1_run2.fastq"]
        = some ["S1", "S1"] ∧
      ¬ (["S1", "S1"] : List String).Nodup := by
  exact ⟨by decide, by decide⟩

/-! ### Claim theorems: mapping ignores the naming convention (C3) -/

/-- C3 (amended): the Mapping Stage walks the input directory itself and
applies no naming filter — a file without the quality-filtered `HQ`
marker, with a derivable key and no pre-existing index, is mapped all the
same. -/
theorem mapping_walks_all_files (fs : String → Bool)
    (out ref root name fo : String)
    (_hHQ : containsHQ name.data = false)
    (h : filename_out name = some fo)
    (hidx : fs (pathJoin out (fo ++ ".sort.bam.bai")) = false) :
    (minimap2_mapping fs [(root, name)] out ref).2.1 =
      [Event.shell (cmd_minimap2 ref (pathJoin root name)
          (pathJoin out (fo ++ ".sort.bam"))),
       Event.exec ["samtools", "index", pathJoin out (fo ++ ".sort.bam")]] := by
  simp [minimap2_mapping, processFile, h, hidx]

/-- Witness for `mapping_walks_all_files` at a concrete non-HQ file. -/
theorem mapping_walks_all_files_witness :
    (minimap2_mapping emptyFS [("r", "raw_x_y.fastq")] "/out/Bam" "ref.fa").2.1 =
      [Event.shell (cmd_minimap2 "ref.fa" (pathJoin "r" "raw_x_y.fastq")
          (pathJoin "/out/Bam" ("x" ++ ".sort.bam"))),
       Event.exec ["samtools", "index", pathJoin "/out/Bam" ("x" ++ ".sort.bam")]] :=
  mapping_walks_all_files emptyFS "/out/Bam" "ref.fa" "r" "raw_x_y.fastq" "x"
    (by decide) (by decide) (by decide)

/-- C3 (counterexample): a file without the `HQ` marker is not discovered
by the resolver, yet the Mapping Stage issues the full mapping pipeline
for it. -/
theorem nonmatching_file_mapped :
    (minimap2_mapping emptyFS [("r", "raw_x_y.fastq")] "/out/Bam" "ref.fa").2.1
        = [Event.shell (cmd_minimap2 "ref.fa" "r/raw_x_y.fastq"
              "/out/Bam/x.sort.bam"),
           Event.exec ["samtools", "index", "/out/Bam/x.sort.bam"]] ∧
      containsHQ "raw_x_y.fastq".data = false ∧
      extract_read_list [("r", "raw_x_y.fastq")] = [] := by decide

/-! ### Claim theorems: the allow-list is dead downstream (C9) -/

/-- C9 (confirmed): two runs identical except for the `--sample_list`
argument produce identical filesystem effects, event traces and success
flags — the filtered working set is computed but never consumed by any
later stage. -/
theorem mapping_independent_of_allowlist (i r o : String) (c : Int)
    (L L' : Option (List String)) (walk : List (String × String))
    (fs0 : String → Bool) :
    run_driver (Args.mk i L r c o) walk fs0 =
      run_driver (Args.mk i L' r c o) walk fs0 := rfl

/-! ### Claim theorems: unparsable filenames abort the stage (C10) -/

/-- C10 (confirmed): a file whose name, before the first dot, contains no
underscore makes the sample-key derivation raise an index-out-of-range
error; the stage aborts there — the file is neither skipped nor mapped
and no later file is processed. -/
theorem unparsable_name_aborts_mapping (fs : String → Bool)
    (root name out ref : String) (rest : List (String × String))
    (h : '_' ∉ (stem name).data) :
    filename_out name = none ∧
      minimap2_mapping fs ((root, name) :: rest) out ref = (fs, [], false) := by
  have hf := filename_out_none_of_no_underscore name h
  refine ⟨hf, ?_⟩
  simp [minimap2_mapping, processFile, hf]

/-- Witness for `unparsable_name_aborts_mapping`: a stray README aborts
the whole mapping stage. -/
theorem unparsable_name_aborts_mapping_witness :
    filename_out "README.md" = none ∧
      minimap2_mapping emptyFS [("r", "README.md")] "/out/Bam" "ref.fa"
        = (emptyFS, [], false) :=
  unparsable_name_aborts_mapping emptyFS "r" "README.md" "/out/Bam" "ref.fa"
    [] (by decide)

/-! ### Event-kind classifiers and segment lemmas for the driver -/

/-- Whether an event is a directory creation. -/
def isMkdir : Event → Bool
  | .mkdir _ => true
  | _ => false

/-- Whether an event is an external invocation of the mapping stage
(shell pipeline or argv invocation). -/
def isMapCmd : Event → Bool
  | .shell _ => true
  | .exec _ => true
  | _ => false

/-- Whether an event is a reference-indexing invocation. -/
def isFaidx : Event → Bool
  | .faidx _ => true
  | _ => false

/-- Whether an event persists the region partition. -/
def isRegions : Event → Bool
  | .regions _ _ => true
  | _ => false

lemma check_create_dir_events (fs : String → Bool) (p : String) :
    ∀ e ∈ (check_create_dir fs p).2, e = Event.mkdir p := by
  unfold check_create_dir
  split <;> simp

lemma check_create_dir_mkdir (fs : String → Bool) (p : String) :
    ∀ e ∈ (check_create_dir fs p).2, isMkdir e = true := by
  intro e he
  rw [check_create_dir_events fs p e he]
  rfl

lemma processFile_events (fs : String → Bool) (out ref root name : String)
    (fs' : String → Bool) (evs : List Event)
    (h : processFile fs out ref root name = some (fs', evs)) :
    ∀ e ∈ evs, isMapCmd e = true := by
  unfold processFile at h
  cases hf : filename_out name with
  | none => rw [hf] at h; exact absurd h (by simp)
  | some fo =>
    rw [hf] at h
    by_cases hb : fs (pathJoin out (fo ++ ".sort.bam.bai")) = true
    · simp only [hb, if_true, Option.some.injEq, Prod.mk.injEq] at h
      rw [← h.2]
      intro e he
      exact absurd he (by simp)
    · simp only [Bool.not_eq_true] at hb
      simp only [hb, Bool.false_eq_true, if_false, Option.some.injEq,
        Prod.mk.injEq] at h
      rw [← h.2]
      intro e he
      rcases List.mem_cons.mp he with rfl | he
      · rfl
      · rcases List.mem_cons.mp he with rfl | he
        · rfl
        · exact absurd he (by simp)

lemma minimap2_mapping_events (walk : List (String × String)) :
    ∀ (fs : String → Bool) (out ref : String),
      ∀ e ∈ (minimap2_mapping fs walk out ref).2.1, isMapCmd e = true := by
  induction walk with
  | nil => intro fs out ref e he; simp [minimap2_mapping] at he
  | cons hd rest ih =>
    intro fs out ref e he
    obtain ⟨root, name⟩ := hd
    cases hp : processFile fs out ref root name with
    | none => simp [minimap2_mapping, hp] at he
    | some pr =>
      obtain ⟨fs', evs⟩ := pr
      simp only [minimap2_mapping, hp] at he
      rcases List.mem_append.mp he with h1 | h1
      · exact processFile_events fs out ref root name fs' evs hp e h1
      · exact ih fs' out ref e h1

lemma samtools_faidx_events (fs : String → Bool) (ref : String) :
    ∀ e ∈ (samtools_faidx fs ref).2, e = Event.faidx ref := by
  unfold samtools_faidx
  split <;> simp

lemma create_reference_chunks_some (fs : String → Bool) (ref : String)
    (n : Int) (fs' : String → Bool) (evs : List Event)
    (h : create_reference_chunks fs ref n = some (fs', evs)) :
    fs' = fs ∧ evs = [Event.regions ref n] ∧ ¬ n ≤ 0 := by
  unfold create_reference_chunks at h
  split at h
  · exact absurd h (by simp)
  · next hn =>
    simp only [Option.some.injEq, Prod.mk.injEq] at h
    exact ⟨h.1.symm, h.2.symm, hn⟩

/-! ### Filesystem monotonicity lemmas -/

/-- Pointwise inclusion of filesystems: every file of `f` is in `g`. -/
def fsLe (f g : String → Bool) : Prop := ∀ p, f p = true → g p = true

lemma fsLe_refl (f : String → Bool) : fsLe f f := fun _ h => h

lemma fsLe_trans {f g h : String → Bool} (h1 : fsLe f g) (h2 : fsLe g h) :
    fsLe f h := fun p hp => h2 p (h1 p hp)

lemma addFile_le (fs : String → Bool) (p : String) : fsLe fs (addFile fs p) := by
  intro q hq
  unfold addFile
  split <;> simp [hq]

lemma addFile_self (fs : String → Bool) (p : String) : addFile fs p p = true := by
  unfold addFile
  simp

lemma check_create_dir_le (fs : String → Bool) (p : String) :
    fsLe fs (check_create_dir fs p).1 := by
  unfold check_create_dir
  split
  · exact fsLe_refl fs
  · exact addFile_le fs p

lemma check_create_dir_sets (fs : String → Bool) (p : String) :
    (check_create_dir fs p).1 p = true := by
  unfold check_create_dir
  split
  · next h => exact h
  · exact addFile_self fs p

lemma processFile_le (fs : String → Bool) (out ref root name : String)
    (fs' : String → Bool) (evs : List Event)
    (h : processFile fs out ref root name = some (fs', evs)) : fsLe fs fs' := by
  unfold processFile at h
  cases hf : filename_out name with
  | none => rw [hf] at h; exact absurd h (by simp)
  | some fo =>
    rw [hf] at h
    by_cases hb : fs (pathJoin out (fo ++ ".sort.bam.bai")) = true
    · simp only [hb, if_true, Option.some.injEq, Prod.mk.injEq] at h
      rw [← h.1]
      exact fsLe_refl fs
    · simp only [Bool.not_eq_true] at hb
      simp only [hb, Bool.false_eq_true, if_false, Option.some.injEq,
        Prod.mk.injEq] at h
      rw [← h.1]
      exact fsLe_trans (addFile_le _ _) (addFile_le _ _)

lemma minimap2_mapping_le (walk : List (String × String)) :
    ∀ (fs : String → Bool) (out ref : String),
      fsLe fs (minimap2_mapping fs walk out ref).1 := by
  induction walk with
  | nil => intro fs out ref; simp [minimap2_mapping]; exact fsLe_refl fs
  | cons hd rest ih =>
    intro fs out ref
    obtain ⟨root, name⟩ := hd
    cases hp : processFile fs out ref root name with
    | none => simp [minimap2_mapping, hp]; exact fsLe_refl fs
    | some pr =>
      obtain ⟨fs', evs⟩ := pr
      simp only [minimap2_mapping, hp]
      exact fsLe_trans (processFile_le fs out ref root name fs' evs hp)
        (ih fs' out ref)

lemma samtools_faidx_le (fs : String → Bool) (ref : String) :
    fsLe fs (samtools_faidx fs ref).1 := by
  unfold samtools_faidx
  split
  · exact fsLe_refl fs
  · exact addFile_le fs _

lemma samtools_faidx_sets (fs : String → Bool) (ref : String) :
    (samtools_faidx fs ref).1 (ref ++ ".fai") = true := by
  unfold samtools_faidx
  split
  · next h => exact h
  · exact addFile_self fs _

lemma calling_part_sets_fai (args : Args) (fs : String → Bool) :
    (calling_part args fs).1 (args.reference ++ ".fai") = true := by
  unfold calling_part
  cases hc : create_reference_chunks (samtools_faidx fs args.reference).1
      args.reference args.chunks with
  | none =>
    simp only [hc]
    exact samtools_faidx_sets fs args.reference
  | some pr =>
    obtain ⟨fs', evs⟩ := pr
    obtain ⟨hfs, -, -⟩ := create_reference_chunks_some _ _ _ _ _ hc
    simp only [hc]
    rw [hfs]
    exact samtools_faidx_sets fs args.reference

/-! ### Stage-part lemmas for the driver -/

lemma isRegions_false_of_isMkdir {e : Event} (h : isMkdir e = true) :
    isRegions e = false := by
  cases e <;> simp_all [isMkdir, isRegions]

lemma isRegions_false_of_isMapCmd {e : Event} (h : isMapCmd e = true) :
    isRegions e = false := by
  cases e <;> simp_all [isMapCmd, isRegions]

lemma not_isMkdir_of_isMapCmd {e : Event} (h : isMapCmd e = true) :
    isMkdir e = false := by
  cases e <;> simp_all [isMapCmd, isMkdir]

lemma resolve_part_events (args : Args) (fs0 : String → Bool) :
    ∃ pre : List Event,
      (resolve_part args fs0).2 =
        pre ++ [Event.scan
          (pathJoin args.input_dir "Samples_Fastq/Filtered_Fastq")] ∧
      ∀ e ∈ pre, isMkdir e = true := by
  refine ⟨(check_create_dir fs0 args.output).2 ++
    (check_create_dir (check_create_dir fs0 args.output).1
      (pathJoin args.output "Logs")).2, ?_, ?_⟩
  · simp [resolve_part, List.append_assoc]
  · intro e he
    rcases List.mem_append.mp he with h1 | h1
    · exact check_create_dir_mkdir _ _ e h1
    · exact check_create_dir_mkdir _ _ e h1

lemma mapping_part_events (args : Args) (walk : List (String × String))
    (fs : String → Bool) :
    ∃ lay mapE : List Event,
      (mapping_part args walk fs).2.1 = lay ++ mapE ∧
      (∀ e ∈ lay, isMkdir e = true) ∧ ∀ e ∈ mapE, isMapCmd e = true := by
  refine ⟨(check_create_dir fs (pathJoin args.output "Bam")).2 ++
      (check_create_dir (check_create_dir fs (pathJoin args.output "Bam")).1
        (pathJoin args.output "Variants")).2,
    (minimap2_mapping (check_create_dir
        (check_create_dir fs (pathJoin args.output "Bam")).1
        (pathJoin args.output "Variants")).1 walk
      (pathJoin args.output "Bam") args.reference).2.1, ?_, ?_, ?_⟩
  · simp [mapping_part, List.append_assoc]
  · intro e he
    rcases List.mem_append.mp he with h1 | h1
    · exact check_create_dir_mkdir _ _ e h1
    · exact check_create_dir_mkdir _ _ e h1
  · exact minimap2_mapping_events walk _ _ _

lemma calling_part_events (args : Args) (fs : String → Bool) :
    ∃ idxE partE : List Event,
      (calling_part args fs).2.1 = idxE ++ partE ∧
      (∀ e ∈ idxE, isFaidx e = true) ∧ ∀ e ∈ partE, isRegions e = true := by
  unfold calling_part
  cases hc : create_reference_chunks (samtools_faidx fs args.reference).1
      args.reference args.chunks with
  | none =>
    refine ⟨(samtools_faidx fs args.reference).2, [], by simp [hc], ?_, by simp⟩
    intro e he
    rw [samtools_faidx_events fs args.reference e he]
    rfl
  | some pr =>
    obtain ⟨fs', evs⟩ := pr
    obtain ⟨-, hevs, -⟩ := create_reference_chunks_some _ _ _ _ _ hc
    refine ⟨(samtools_faidx fs args.reference).2, evs, by simp [hc], ?_, ?_⟩
    · intro e he
      rw [samtools_faidx_events fs args.reference e he]
      rfl
    · intro e he
      rw [hevs] at he
      rcases List.mem_cons.mp he with rfl | he
      · rfl
      · exact absurd he (by simp)

lemma resolve_part_mkdirs (args : Args) (fs0 : String → Bool) :
    ∀ p, Event.mkdir p ∈ (resolve_part args fs0).2 →
      p = args.output ∨ p = pathJoin args.output "Logs" := by
  intro p hp
  unfold resolve_part at hp
  simp only [List.mem_append, List.mem_singleton] at hp
  rcases hp with (h1 | h1) | h1
  · left
    have := check_create_dir_events _ _ _ h1
    injection this
  · right
    have := check_create_dir_events _ _ _ h1
    injection this
  · exact absurd h1 (by simp)

lemma mapping_part_mkdirs (args : Args) (walk : List (String × String))
    (fs : String → Bool) :
    ∀ p, Event.mkdir p ∈ (mapping_part args walk fs).2.1 →
      p = pathJoin args.output "Bam" ∨ p = pathJoin args.output "Variants" := by
  intro p hp
  unfold mapping_part at hp
  simp only [List.mem_append] at hp
  rcases hp with (h1 | h1) | h1
  · left
    have := check_create_dir_events _ _ _ h1
    injection this
  · right
    have := check_create_dir_events _ _ _ h1
    injection this
  · have := minimap2_mapping_events walk _ _ _ _ h1
    exact absurd this (by simp [isMapCmd])

lemma calling_part_mkdirs (args : Args) (fs : String → Bool) :
    ∀ p, Event.mkdir p ∉ (calling_part args fs).2.1 := by
  intro p hp
  obtain ⟨idxE, partE, heq, hidx, hpart⟩ := calling_part_events args fs
  rw [heq] at hp
  rcases List.mem_append.mp hp with h1 | h1
  · have := hidx _ h1
    simp [isFaidx] at this
  · have := hpart _ h1
    simp [isRegions] at this

lemma mapping_part_le (args : Args) (walk : List (String × String))
    (fs : String → Bool) : fsLe fs (mapping_part args walk fs).1 := by
  unfold mapping_part
  exact fsLe_trans (check_create_dir_le _ _)
    (fsLe_trans (check_create_dir_le _ _) (minimap2_mapping_le walk _ _ _))

lemma calling_part_le (args : Args) (fs : String → Bool) :
    fsLe fs (calling_part args fs).1 := by
  unfold calling_part
  cases hc : create_reference_chunks (samtools_faidx fs args.reference).1
      args.reference args.chunks with
  | none =>
    simp only [hc]
    exact samtools_faidx_le fs args.reference
  | some pr =>
    obtain ⟨fs', evs⟩ := pr
    obtain ⟨hfs, -, -⟩ := create_reference_chunks_some _ _ _ _ _ hc
    simp only [hc]
    rw [hfs]
    exact samtools_faidx_le fs args.reference

lemma resolve_part_sets (args : Args) (fs0 : String → Bool) :
    (resolve_part args fs0).1 args.output = true ∧
      (resolve_part args fs0).1 (pathJoin args.output "Logs") = true := by
  unfold resolve_part
  constructor
  · exact check_create_dir_le _ _ _ (check_create_dir_sets fs0 args.output)
  · exact check_create_dir_sets _ _

lemma mapping_part_sets (args : Args) (walk : List (String × String))
    (fs : String → Bool) :
    (mapping_part args walk fs).1 (pathJoin args.output "Bam") = true ∧
      (mapping_part args walk fs).1 (pathJoin args.output "Variants") = true := by
  unfold mapping_part
  constructor
  · exact minimap2_mapping_le walk _ _ _ _
      (check_create_dir_le _ _ _ (check_create_dir_sets _ _))
  · exact minimap2_mapping_le walk _ _ _ _ (check_create_dir_sets _ _)

lemma resolve_part_no_regions (args : Args) (fs0 : String → Bool) :
    ∀ e ∈ (resolve_part args fs0).2, isRegions e = false := by
  obtain ⟨pre, heq, hpre⟩ := resolve_part_events args fs0
  rw [heq]
  intro e he
  rcases List.mem_append.mp he with h1 | h1
  · exact isRegions_false_of_isMkdir (hpre e h1)
  · rw [List.mem_singleton] at h1
    subst h1
    rfl

lemma mapping_part_no_regions (args : Args) (walk : List (String × String))
    (fs : String → Bool) :
    ∀ e ∈ (mapping_part args walk fs).2.1, isRegions e = false := by
  obtain ⟨lay, mapE, heq, hlay, hmap⟩ := mapping_part_events args walk fs
  rw [heq]
  intro e he
  rcases List.mem_append.mp he with h1 | h1
  · exact isRegions_false_of_isMkdir (hlay e h1)
  · exact isRegions_false_of_isMapCmd (hmap e h1)

lemma calling_part_invalid (args : Args) (fs : String → Bool)
    (hn : args.chunks ≤ 0) :
    (calling_part args fs).2.2 = false ∧
      ∀ e ∈ (calling_part args fs).2.1, isRegions e = false := by
  unfold calling_part
  cases hc2 : create_reference_chunks (samtools_faidx fs args.reference).1
      args.reference args.chunks with
  | none =>
    simp only [hc2]
    refine ⟨trivial, ?_⟩
    intro e he
    rw [samtools_faidx_events _ _ e he]
    rfl
  | some pr =>
    obtain ⟨fs', evs⟩ := pr
    obtain ⟨-, -, hgt⟩ := create_reference_chunks_some _ _ _ _ _ hc2
    exact absurd hn hgt

/-! ### Driver branch lemmas -/

lemma run_driver_none (args : Args) (walk : List (String × String))
    (fs0 : String → Bool)
    (h : sample_list (extract_read_list walk) = none) :
    run_driver args walk fs0 =
      ((resolve_part args fs0).1, (resolve_part args fs0).2, false) := by
  unfold run_driver
  simp [h]

lemma run_driver_map_fail (args : Args) (walk : List (String × String))
    (fs0 : String → Bool) (s : List String)
    (h : sample_list (extract_read_list walk) = some s)
    (hm : (mapping_part args walk (resolve_part args fs0).1).2.2 = false) :
    run_driver args walk fs0 =
      ((mapping_part args walk (resolve_part args fs0).1).1,
        (resolve_part args fs0).2 ++
          (mapping_part args walk (resolve_part args fs0).1).2.1, false) := by
  unfold run_driver
  simp [h, hm]

lemma run_driver_ok (args : Args) (walk : List (String × String))
    (fs0 : String → Bool) (s : List String)
    (h : sample_list (extract_read_list walk) = some s)
    (hm : (mapping_part args walk (resolve_part args fs0).1).2.2 = true) :
    run_driver args walk fs0 =
      ((calling_part args (mapping_part args walk (resolve_part args fs0).1).1).1,
        (resolve_part args fs0).2 ++
          (mapping_part args walk (resolve_part args fs0).1).2.1 ++
          (calling_part args
            (mapping_part args walk (resolve_part args fs0).1).1).2.1,
        (calling_part args
          (mapping_part args walk (resolve_part args fs0).1).1).2.2) := by
  unfold run_driver
  simp [h, hm]

/-! ### Claim theorems: stage order (C7) -/

/-- C7 (amended): every run's event trace decomposes, in order, into:
setup directory creations (output root, log folder), the sample
resolution scan, layout directory creations, mapping-stage external
invocations, reference indexing, and reference partitioning — so sample
resolution happens BEFORE layout creation, and mapping, indexing and
partitioning follow in the claimed order. -/
theorem driver_stage_order (args : Args) (walk : List (String × String))
    (fs0 : String → Bool) :
    ∃ pre lay mapE idxE partE : List Event,
      (run_driver args walk fs0).2.1 =
        pre ++ [Event.scan
            (pathJoin args.input_dir "Samples_Fastq/Filtered_Fastq")]
          ++ lay ++ mapE ++ idxE ++ partE ∧
        (∀ e ∈ pre, isMkdir e = true) ∧ (∀ e ∈ lay, isMkdir e = true) ∧
        (∀ e ∈ mapE, isMapCmd e = true) ∧ (∀ e ∈ idxE, isFaidx e = true) ∧
        ∀ e ∈ partE, isRegions e = true := by
  obtain ⟨pre, hpeq, hpre⟩ := resolve_part_events args fs0
  cases hsl : sample_list (extract_read_list walk) with
  | none =>
    rw [run_driver_none args walk fs0 hsl]
    refine ⟨pre, [], [], [], [], ?_, hpre, by simp, by simp, by simp, by simp⟩
    simp [hpeq]
  | some s =>
    obtain ⟨lay, mapE, hmeq, hlay, hmap⟩ :=
      mapping_part_events args walk (resolve_part args fs0).1
    cases hmv : (mapping_part args walk (resolve_part args fs0).1).2.2 with
    | false =>
      rw [run_driver_map_fail args walk fs0 s hsl hmv]
      refine ⟨pre, lay, mapE, [], [], ?_, hpre, hlay, hmap, by simp, by simp⟩
      simp [hpeq, hmeq]
    | true =>
      obtain ⟨idxE, partE, hceq, hidx, hpart⟩ :=
        calling_part_events args
          (mapping_part args walk (resolve_part args fs0).1).1
      rw [run_driver_ok args walk fs0 s hsl hmv]
      refine ⟨pre, lay, mapE, idxE, partE, ?_, hpre, hlay, hmap, hidx, hpart⟩
      simp [hpeq, hmeq, hceq]

/-- Witness for `driver_stage_order` at a concrete run. -/
theorem driver_stage_order_witness :
    ∃ pre lay mapE idxE partE : List Event,
      (run_driver exArgs exWalk emptyFS).2.1 =
        pre ++ [Event.scan
            (pathJoin exArgs.input_dir "Samples_Fastq/Filtered_Fastq")]
          ++ lay ++ mapE ++ idxE ++ partE ∧
        (∀ e ∈ pre, isMkdir e = true) ∧ (∀ e ∈ lay, isMkdir e = true) ∧
        (∀ e ∈ mapE, isMapCmd e = true) ∧ (∀ e ∈ idxE, isFaidx e = true) ∧
        ∀ e ∈ partE, isRegions e = true :=
  driver_stage_order exArgs exWalk emptyFS

/-- C7 (counterexample): in a concrete run, the sample-resolution scan
(trace index 2) happens strictly before the layout creation of the `Bam`
directory (trace index 3), so layout creation does not precede sample
resolution. -/
theorem resolution_precedes_layout :
    (run_driver exArgs exWalk emptyFS).2.1.get? 2
        = some (Event.scan "/in/Samples_Fastq/Filtered_Fastq") ∧
      (run_driver exArgs exWalk emptyFS).2.1.get? 3
        = some (Event.mkdir "/out/Bam") ∧
      ¬ (3 : Nat) < 2 := by decide

/-! ### Claim theorems: output layout (C4) -/

/-- C4 (amended): the run only ever creates the output root, the log
folder, and the `Bam` and `Variants` directories — each idempotently
(create-if-absent, no effect when present) — and on a successful run all
four exist at the end; the statistics, comparison and annotation
directories are declared as paths but never created. -/
theorem layout_created_dirs (args : Args) (walk : List (String × String))
    (fs0 : String → Bool) (hok : (run_driver args walk fs0).2.2 = true) :
    (∀ p, Event.mkdir p ∈ (run_driver args walk fs0).2.1 →
        p = args.output ∨ p = pathJoin args.output "Logs" ∨
          p = pathJoin args.output "Bam" ∨
          p = pathJoin args.output "Variants") ∧
      (∀ (fs : String → Bool) (q : String), fs q = true →
        check_create_dir fs q = (fs, [])) ∧
      (run_driver args walk fs0).1 args.output = true ∧
      (run_driver args walk fs0).1 (pathJoin args.output "Logs") = true ∧
      (run_driver args walk fs0).1 (pathJoin args.output "Bam") = true ∧
      (run_driver args walk fs0).1 (pathJoin args.output "Variants") = true := by
  have hidem : ∀ (fs : String → Bool) (q : String), fs q = true →
      check_create_dir fs q = (fs, []) := by
    intro fs q hq
    unfold check_create_dir
    rw [if_pos hq]
  cases hsl : sample_list (extract_read_list walk) with
  | none =>
    rw [run_driver_none args walk fs0 hsl] at hok
    exact absurd hok (by simp)
  | some s =>
    cases hmv : (mapping_part args walk (resolve_part args fs0).1).2.2 with
    | false =>
      rw [run_driver_map_fail args walk fs0 s hsl hmv] at hok
      exact absurd hok (by simp)
    | true =>
      rw [run_driver_ok args walk fs0 s hsl hmv]
      refine ⟨?_, hidem, ?_, ?_, ?_, ?_⟩
      · intro p hp
        simp only [List.mem_append] at hp
        rcases hp with (h1 | h1) | h1
        · rcases resolve_part_mkdirs args fs0 p h1 with h2 | h2
          · exact Or.inl h2
          · exact Or.inr (Or.inl h2)
        · rcases mapping_part_mkdirs args walk _ p h1 with h2 | h2
          · exact Or.inr (Or.inr (Or.inl h2))
          · exact Or.inr (Or.inr (Or.inr h2))
        · exact absurd h1 (calling_part_mkdirs args _ p)
      · exact calling_part_le args _ _
          (mapping_part_le args walk _ _ (resolve_part_sets args fs0).1)
      · exact calling_part_le args _ _
          (mapping_part_le args walk _ _ (resolve_part_sets args fs0).2)
      · exact calling_part_le args _ _ (mapping_part_sets args walk _).1
      · exact calling_part_le args _ _ (mapping_part_sets args walk _).2

/-- Witness for `layout_created_dirs` at a concrete successful run. -/
theorem layout_created_dirs_witness :
    (∀ p, Event.mkdir p ∈ (run_driver exArgs exWalk emptyFS).2.1 →
        p = exArgs.output ∨ p = pathJoin exArgs.output "Logs" ∨
          p = pathJoin exArgs.output "Bam" ∨
          p = pathJoin exArgs.output "Variants") ∧
      (∀ (fs : String → Bool) (q : String), fs q = true →
        check_create_dir fs q = (fs, [])) ∧
      (run_driver exArgs exWalk emptyFS).1 exArgs.output = true ∧
      (run_driver exArgs exWalk emptyFS).1
        (pathJoin exArgs.output "Logs") = true ∧
      (run_driver exArgs exWalk emptyFS).1
        (pathJoin exArgs.output "Bam") = true ∧
      (run_driver exArgs exWalk emptyFS).1
        (pathJoin exArgs.output "Variants") = true :=
  layout_created_dirs exArgs exWalk emptyFS (by decide)

/-- C4 (counterexample): a complete, successful run never creates the
statistics, comparison or annotation directories, so the claimed complete
fixed tree does not exist after layout creation (nor ever). -/
theorem stats_dir_never_created :
    (run_driver exArgs exWalk emptyFS).2.2 = true ∧
      (run_driver exArgs exWalk emptyFS).1 "/out/Stats" = false ∧
      (run_driver exArgs exWalk emptyFS).1 "/out/Stats/Bamstats" = false ∧
      (run_driver exArgs exWalk emptyFS).1 "/out/Stats/Coverage" = false ∧
      (run_driver exArgs exWalk emptyFS).1 "/out/Compare" = false ∧
      (run_driver exArgs exWalk emptyFS).1 "/out/Annotation" = false ∧
      (run_driver exArgs exWalk emptyFS).1 "/out/Annotation/snpeff" = false ∧
      (run_driver exArgs exWalk emptyFS).1 "/out/Annotation/user" = false ∧
      (run_driver exArgs exWalk emptyFS).1 "/out/Annotation/user_aa" = false ∧
      (run_driver exArgs exWalk emptyFS).1 "/out/Annotation/blast" = false := by
  decide

/-! ### Claim theorems: invalid chunk count (C6) -/

/-- C6 (amended): a target chunk count `n ≤ 0` makes the (spec-modelled)
Reference Partitioner itself fail with no filesystem effect of its own,
and the run fails with no region-list file ever written (no `regions`
event in the trace); HOWEVER the run does touch the filesystem before
that failure — when resolution and mapping succeed, the separately
invoked reference-indexing step runs unconditionally before the
partitioner, so the reference index exists at the end of the failed
run. -/
theorem invalid_chunks_fails (fs : String → Bool) (ref : String) (n : Int)
    (args : Args) (walk : List (String × String)) (fs0 : String → Bool)
    (hn : n ≤ 0) (hc : args.chunks = n) :
    create_reference_chunks fs ref n = none ∧
      (run_driver args walk fs0).2.2 = false ∧
      (∀ e ∈ (run_driver args walk fs0).2.1, isRegions e = false) ∧
      ∀ s, sample_list (extract_read_list walk) = some s →
        (mapping_part args walk (resolve_part args fs0).1).2.2 = true →
        (run_driver args walk fs0).1 (args.reference ++ ".fai") = true := by
  have hn' : args.chunks ≤ 0 := by rw [hc]; exact hn
  have hfai : ∀ s, sample_list (extract_read_list walk) = some s →
      (mapping_part args walk (resolve_part args fs0).1).2.2 = true →
      (run_driver args walk fs0).1 (args.reference ++ ".fai") = true := by
    intro s hsl hmv
    rw [run_driver_ok args walk fs0 s hsl hmv]
    exact calling_part_sets_fai args _
  have hbc : (run_driver args walk fs0).2.2 = false ∧
      ∀ e ∈ (run_driver args walk fs0).2.1, isRegions e = false := by
    cases hsl : sample_list (extract_read_list walk) with
    | none =>
      rw [run_driver_none args walk fs0 hsl]
      exact ⟨rfl, resolve_part_no_regions args fs0⟩
    | some s =>
      cases hmv : (mapping_part args walk (resolve_part args fs0).1).2.2 with
      | false =>
        rw [run_driver_map_fail args walk fs0 s hsl hmv]
        refine ⟨rfl, ?_⟩
        intro e he
        rcases List.mem_append.mp he with h1 | h1
        · exact resolve_part_no_regions args fs0 e h1
        · exact mapping_part_no_regions args walk _ e h1
      | true =>
        rw [run_driver_ok args walk fs0 s hsl hmv]
        obtain ⟨hcp, hcpe⟩ := calling_part_invalid args
          (mapping_part args walk (resolve_part args fs0).1).1 hn'
        refine ⟨hcp, ?_⟩
        intro e he
        simp only [List.mem_append] at he
        rcases he with (h1 | h1) | h1
        · exact resolve_part_no_regions args fs0 e h1
        · exact mapping_part_no_regions args walk _ e h1
        · exact hcpe e h1
  refine ⟨?_, hbc.1, hbc.2, hfai⟩
  unfold create_reference_chunks
  rw [if_pos hn]

/-- Witness for `invalid_chunks_fails` at a concrete run with chunk
count zero. -/
theorem invalid_chunks_fails_witness :
    create_reference_chunks emptyFS "ref.fa" 0 = none ∧
      (run_driver (Args.mk "/in" none "ref.fa" 0 "/out") exWalk emptyFS).2.2
        = false ∧
      (∀ e ∈ (run_driver (Args.mk "/in" none "ref.fa" 0 "/out") exWalk
          emptyFS).2.1, isRegions e = false) ∧
      ∀ s, sample_list (extract_read_list exWalk) = some s →
        (mapping_part (Args.mk "/in" none "ref.fa" 0 "/out") exWalk
          (resolve_part (Args.mk "/in" none "ref.fa" 0 "/out") emptyFS).1).2.2
            = true →
        (run_driver (Args.mk "/in" none "ref.fa" 0 "/out") exWalk emptyFS).1
          ((Args.mk "/in" none "ref.fa" 0 "/out").reference ++ ".fai") = true :=
  invalid_chunks_fails emptyFS "ref.fa" 0 (Args.mk "/in" none "ref.fa" 0 "/out")
    exWalk emptyFS (by decide) rfl

/-- C6 (counterexample): a run with chunk count zero, starting with no
reference index on disk, fails — but only after the reference-indexing
step has already run: the trace contains the indexing event and the
final filesystem contains `ref.fa.fai`, so the run does not fail before
touching the filesystem, and an index is created. -/
theorem index_created_despite_invalid_chunks :
    (run_driver (Args.mk "/in" none "ref.fa" 0 "/out") exWalk emptyFS).2.2
        = false ∧
      Event.faidx "ref.fa" ∈
        (run_driver (Args.mk "/in" none "ref.fa" 0 "/out") exWalk emptyFS).2.1 ∧
      (run_driver (Args.mk "/in" none "ref.fa" 0 "/out") exWalk emptyFS).1
        "ref.fa.fai" = true ∧
      emptyFS "ref.fa.fai" = false := by decide
